import Mathlib

/-!
Verification of the TEE device module (`src/device/tee.rs`) of gateway-mfr-rs.

The module manages a hardware-backed keypair in a numbered secure-element slot.
The secure-element driver and the cryptographic primitive library are external
collaborators; they are embedded here as abstract interfaces (`TeeDriver`,
`CryptoLib`) over an explicit hardware state, and every run of an operation is
instrumented with a trace of the hardware calls it makes, so that retry counts,
frame conditions and network usage can be stated and proved.
-/

set_option maxRecDepth 4000

/-- Network tag of a keypair, from the external helium-crypto crate.
The tee module only ever mentions `MainNet`. -/
inductive Network where
  | MainNet
  | TestNet
  deriving DecidableEq, Repr

/-- Key type tag, from the external helium-crypto crate. -/
inductive KeyType where
  | EccCompact
  | Ed25519
  deriving DecidableEq, Repr

/-- Key tag: network together with key type, as in helium-crypto `KeyTag`. -/
structure KeyTag where
  network : Network
  key_type : KeyType
  deriving DecidableEq, Repr

/-- One observable call made by the tee module: a hardware keypair generation,
a hardware slot deletion, a hardware retrieval (with the network it requests),
or a purely software keypair generation (with the tag it requests). -/
inductive HwEvent where
  | genCall (slot : Nat)
  | delCall (slot : Nat)
  | retrieveCall (slot : Nat) (net : Network)
  | keygenSoft (tag : KeyTag)
  deriving DecidableEq, Repr

/-- The external secure-element driver interface (spec section 6): generation,
deletion and retrieval, addressed by slot index, over an abstract hardware
state `σ`, failing with errors of type `ε` and yielding keypair handles `κ`.
Retrieval is read-only on the hardware state. -/
structure TeeDriver (σ ε κ : Type) where
  gen_ecc_keypair : Nat → σ → Except ε σ
  del_ecc_keypair : Nat → σ → Except ε σ
  keypair : Nat → Network → σ → Except ε κ

deriving instance DecidableEq for Except

/-- Outcome of running a slot-key-manager operation: the returned value or
error, the final hardware state, and the trace of calls made. -/
structure HWRun (σ ε α : Type) where
  result : Except ε α
  state : σ
  events : List HwEvent
  deriving DecidableEq, Repr

variable {σ ε κ π τ : Type}

/-- Embedding of `compact_key_in_slot`: retrieve the keypair currently in the
slot, always requesting `Network::MainNet`. -/
def compact_key_in_slot (d : TeeDriver σ ε κ) (slot : Nat) (s : σ) : HWRun σ ε κ :=
  { result := d.keypair slot Network.MainNet s
    state := s
    events := [HwEvent.retrieveCall slot Network.MainNet] }

/-- Embedding of the loop body of `generate_compact_key_in_slot`, recursing on
the remaining `try_count`: generate a keypair in the slot (aborting on a
generation error), attempt retrieval; on success return the keypair; on a
retrieval error with no budget left return that error; otherwise delete the
slot contents (aborting on a deletion error) and retry with one fewer try. -/
def generate_loop (d : TeeDriver σ ε κ) (slot : Nat) : Nat → σ → HWRun σ ε κ
  | try_count, s =>
    match d.gen_ecc_keypair slot s with
    | Except.error e => { result := Except.error e, state := s, events := [HwEvent.genCall slot] }
    | Except.ok s1 =>
      let r := compact_key_in_slot d slot s1
      match r.result with
      | Except.ok kp =>
          { result := Except.ok kp, state := r.state, events := HwEvent.genCall slot :: r.events }
      | Except.error err =>
        match try_count with
        | 0 =>
            { result := Except.error err, state := r.state
              events := HwEvent.genCall slot :: r.events }
        | n + 1 =>
          match d.del_ecc_keypair slot r.state with
          | Except.error e =>
              { result := Except.error e, state := r.state
                events := HwEvent.genCall slot :: (r.events ++ [HwEvent.delCall slot]) }
          | Except.ok s2 =>
            let rest := generate_loop d slot n s2
            { result := rest.result, state := rest.state
              events :=
                (HwEvent.genCall slot :: (r.events ++ [HwEvent.delCall slot])) ++ rest.events }

/-- Embedding of `generate_compact_key_in_slot`: the generate-and-verify loop
started with `try_count = 10`. -/
def generate_compact_key_in_slot (d : TeeDriver σ ε κ) (slot : Nat) (s : σ) : HWRun σ ε κ :=
  generate_loop d slot 10 s

/-- Embedding of `Device`: a single addressable secure-element identity,
carrying its slot index (a u8 in the source). -/
structure Device where
  slot : Nat
  deriving DecidableEq, Repr

/-- Embedding of `Device::get_keypair`: with `create` run the
generate-and-verify protocol, otherwise just retrieve. -/
def Device.get_keypair (d : TeeDriver σ ε κ) (dev : Device) (create : Bool) (s : σ) :
    HWRun σ ε κ :=
  if create then generate_compact_key_in_slot d dev.slot s
  else compact_key_in_slot d dev.slot s

/-- Embedding of `Device::provision`: `get_keypair` with `create = true`. -/
def Device.provision (d : TeeDriver σ ε κ) (dev : Device) (s : σ) : HWRun σ ε κ :=
  Device.get_keypair d dev true s

/-- Embedding of the `Test` enum: three test kinds, each carrying the slot. -/
inductive Test where
  | MinerKey (slot : Nat)
  | Sign (slot : Nat)
  | Ecdh (slot : Nat)
  deriving DecidableEq, Repr

/-- Embedding of the `Display` impl for `Test`. -/
def Test.display : Test → String
  | Test.MinerKey slot => "miner_key(" ++ toString slot ++ ")"
  | Test.Sign slot => "sign(" ++ toString slot ++ ")"
  | Test.Ecdh slot => "ecdh(" ++ toString slot ++ ")"

/-- Embedding of `Device::get_tests`: the fixed three-element test list. -/
def Device.get_tests (dev : Device) : List Test :=
  [Test.MinerKey dev.slot, Test.Sign dev.slot, Test.Ecdh dev.slot]

/-- The external cryptographic primitive library (spec section 6), over keypair
handles `κ`, public keys `π`, signatures `τ` and errors `ε`. Shared secrets are
modelled as byte lists. `generate` stands for `Keypair::generate(tag, OsRng)`;
the random source is folded into the library value, so a run of a check is a
function of the library it is given. -/
structure CryptoLib (κ π τ ε : Type) where
  public_key : κ → π
  render_public_key : π → String
  sign : κ → List Nat → Except ε τ
  verify : π → List Nat → τ → Except ε Unit
  ecdh : κ → π → Except ε (List Nat)
  generate : KeyTag → κ

/-- Modelled from the spec: the `TestResult` type comes from the device test
module, which is not under src. Per the spec, a test outcome is either a pass
carrying a descriptive value, a failure describing an expectation mismatch
(expected vs actual, both rendered as strings), or an underlying error.
`test::pass(v)` is `pass`, `test::expected(e, a)` is `expected` with the first
argument the expected rendering and the second the actual rendering. -/
inductive TestOutcome (ε : Type) where
  | pass (value : String)
  | expected (expectedValue actualValue : String)
  | error (err : ε)
  deriving DecidableEq, Repr

/-- Outcome of running one self-test: its result, the final hardware state,
and the trace of calls made. -/
structure TestRun (σ ε : Type) where
  result : TestOutcome ε
  state : σ
  events : List HwEvent
  deriving DecidableEq, Repr

/-- The bytes of the fixed message `b"hello world"` signed by the sign check. -/
def helloWorldData : List Nat :=
  "hello world".data.map Char.toNat

/-- One lowercase hexadecimal digit. -/
def hexDigit (n : Nat) : Char :=
  if n < 10 then Char.ofNat (48 + n) else Char.ofNat (87 + n)

/-- Two lowercase hexadecimal digits of one byte. -/
def byteHex (b : Nat) : String :=
  String.mk [hexDigit (b / 16 % 16), hexDigit (b % 16)]

/-- Hexadecimal rendering of a byte list, modelling the external formatting of
shared-secret bytes used by the ecdh check (alternate-form lowercase hex). -/
def hexFmt (bs : List Nat) : String :=
  "0x" ++ String.join (bs.map byteHex)

/-- Embedding of `check_miner_key`: retrieve the keypair in the slot and pass
with its public key as the value; a retrieval error is the failure. -/
def check_miner_key (d : TeeDriver σ ε κ) (c : CryptoLib κ π τ ε) (slot : Nat) (s : σ) :
    TestRun σ ε :=
  let r := compact_key_in_slot d slot s
  match r.result with
  | Except.error e => { result := TestOutcome.error e, state := r.state, events := r.events }
  | Except.ok kp =>
      { result := TestOutcome.pass (c.render_public_key (c.public_key kp))
        state := r.state, events := r.events }

/-- Embedding of `check_sign`: retrieve the keypair in the slot, sign the fixed
message, verify the signature against the same public key and message, and
pass with the literal value ok; any error along the way is the failure. -/
def check_sign (d : TeeDriver σ ε κ) (c : CryptoLib κ π τ ε) (slot : Nat) (s : σ) :
    TestRun σ ε :=
  let r := compact_key_in_slot d slot s
  match r.result with
  | Except.error e => { result := TestOutcome.error e, state := r.state, events := r.events }
  | Except.ok kp =>
    match c.sign kp helloWorldData with
    | Except.error e => { result := TestOutcome.error e, state := r.state, events := r.events }
    | Except.ok signature =>
      match c.verify (c.public_key kp) helloWorldData signature with
      | Except.error e => { result := TestOutcome.error e, state := r.state, events := r.events }
      | Except.ok _ => { result := TestOutcome.pass "ok", state := r.state, events := r.events }

/-- Embedding of `check_ecdh`: retrieve the keypair in the slot, generate a
software peer keypair with tag MainNet/EccCompact, compute both shared
secrets, and compare them byte for byte: on a mismatch return an expectation
mismatch with each secret rendered in hexadecimal (device secret as expected,
peer secret as actual), on a match pass with the literal value ok; any error
from retrieval or either ecdh call is the failure. -/
def check_ecdh (d : TeeDriver σ ε κ) (c : CryptoLib κ π τ ε) (slot : Nat) (s : σ) :
    TestRun σ ε :=
  let r := compact_key_in_slot d slot s
  match r.result with
  | Except.error e => { result := TestOutcome.error e, state := r.state, events := r.events }
  | Except.ok kp =>
    let tag : KeyTag := { network := Network.MainNet, key_type := KeyType.EccCompact }
    let other_keypair := c.generate tag
    let ev := r.events ++ [HwEvent.keygenSoft tag]
    match c.ecdh kp (c.public_key other_keypair) with
    | Except.error e => { result := TestOutcome.error e, state := r.state, events := ev }
    | Except.ok ecc_shared_secret =>
      match c.ecdh other_keypair (c.public_key kp) with
      | Except.error e => { result := TestOutcome.error e, state := r.state, events := ev }
      | Except.ok other_shared_secret =>
        if ecc_shared_secret ≠ other_shared_secret then
          { result := TestOutcome.expected (hexFmt ecc_shared_secret) (hexFmt other_shared_secret)
            state := r.state, events := ev }
        else { result := TestOutcome.pass "ok", state := r.state, events := ev }

/-- Embedding of `Test::run`: dispatch to the check for the test kind. -/
def Test.run (d : TeeDriver σ ε κ) (c : CryptoLib κ π τ ε) (s : σ) : Test → TestRun σ ε
  | Test.MinerKey slot => check_miner_key d c slot s
  | Test.Sign slot => check_sign d c slot s
  | Test.Ecdh slot => check_ecdh d c slot s

/-- Number of hardware generation calls in a trace. -/
def countGen : List HwEvent → Nat
  | [] => 0
  | HwEvent.genCall _ :: rest => countGen rest + 1
  | _ :: rest => countGen rest

/-- Number of hardware deletion calls in a trace. -/
def countDel : List HwEvent → Nat
  | [] => 0
  | HwEvent.delCall _ :: rest => countDel rest + 1
  | _ :: rest => countDel rest

/-- An event respects the MainNet-only discipline: every hardware retrieval
requests MainNet and every software generation uses the MainNet/EccCompact
tag. -/
def HwEvent.mainNetOnly : HwEvent → Bool
  | HwEvent.retrieveCall _ net => net = Network.MainNet
  | HwEvent.keygenSoft tag =>
      tag = { network := Network.MainNet, key_type := KeyType.EccCompact }
  | _ => true

/-- `p` is an initial segment of `l`. -/
def IsInit {α : Type} (p l : List α) : Prop :=
  ∃ t, p ++ t = l

/-- The slot of a test descriptor. -/
def Test.slotOf : Test → Nat
  | Test.MinerKey slot => slot
  | Test.Sign slot => slot
  | Test.Ecdh slot => slot

/-- The key tag requested for the software peer keypair in the ecdh check. -/
def peerTag : KeyTag :=
  { network := Network.MainNet, key_type := KeyType.EccCompact }

/-- Secure element stub whose generation succeeds, retrieval fails with
error 3, and deletion fails with error 7; hardware state is trivial. -/
def delFailDriver : TeeDriver Unit Nat Nat :=
  { gen_ecc_keypair := fun _ _ => Except.ok ()
    del_ecc_keypair := fun _ _ => Except.error 7
    keypair := fun _ _ _ => Except.error 3 }

/-- Secure element stub for the retry bound: the hardware state counts the
completed generation calls; generation and deletion always succeed, and
retrieval fails — reporting the attempt index as the error — on the first k
attempts and succeeds — returning the attempt index as the keypair — from
attempt k + 1 on. -/
def retryStub (k : Nat) : TeeDriver Nat Nat Nat :=
  { gen_ecc_keypair := fun _ s => Except.ok (s + 1)
    del_ecc_keypair := fun _ s => Except.ok s
    keypair := fun _ _ s => if s ≤ k then Except.error s else Except.ok s }

/-- Driver stub for which every call succeeds; the keypair handle is 5. -/
def okDriver : TeeDriver Unit Nat Nat :=
  { gen_ecc_keypair := fun _ _ => Except.ok ()
    del_ecc_keypair := fun _ _ => Except.ok ()
    keypair := fun _ _ _ => Except.ok 5 }

/-- Crypto stub over Nat handles: public keys add 100, signing yields 9,
verification succeeds, the ecdh secret is the two reduced inputs, and
software generation yields the handle 42. -/
def okCrypto : CryptoLib Nat Nat Nat Nat :=
  { public_key := fun kp => kp + 100
    render_public_key := fun p => toString p
    sign := fun _ _ => Except.ok 9
    verify := fun _ _ _ => Except.ok ()
    ecdh := fun kp p => Except.ok [kp % 256, p % 256]
    generate := fun _ => 42 }

/-- C8: for every device, `get_tests` returns exactly the ordered three-element
list MinerKey, Sign, Ecdh, each test carrying the device slot number. -/
theorem c8_get_tests_fixed_list (dev : Device) :
    Device.get_tests dev =
      [Test.MinerKey dev.slot, Test.Sign dev.slot, Test.Ecdh dev.slot] ∧
    (Device.get_tests dev).length = 3 ∧
    ∀ t ∈ Device.get_tests dev, Test.slotOf t = dev.slot := by
  refine ⟨rfl, rfl, ?_⟩
  intro t ht
  simp only [Device.get_tests, List.mem_cons, List.not_mem_nil, or_false] at ht
  rcases ht with h | h | h <;> subst h <;> rfl

/-- Closed instance of the test-list property at a concrete device. -/
theorem c8_get_tests_fixed_list_witness :
    Test.slotOf (Test.MinerKey 7) = 7 :=
  (c8_get_tests_fixed_list { slot := 7 }).2.2 (Test.MinerKey 7)
    (by simp [Device.get_tests])

/-- C9: for every slot number n, a test displays as kind(n): MinerKey as
miner_key(n), Sign as sign(n), Ecdh as ecdh(n); in particular the spec
examples miner_key(3), sign(0) and ecdh(5). -/
theorem c9_test_display_names (n : Nat) :
    Test.display (Test.MinerKey n) = "miner_key(" ++ toString n ++ ")" ∧
    Test.display (Test.Sign n) = "sign(" ++ toString n ++ ")" ∧
    Test.display (Test.Ecdh n) = "ecdh(" ++ toString n ++ ")" ∧
    Test.display (Test.MinerKey 3) = "miner_key(3)" ∧
    Test.display (Test.Sign 0) = "sign(0)" ∧
    Test.display (Test.Ecdh 5) = "ecdh(5)" := by
  exact ⟨rfl, rfl, rfl, rfl, rfl, rfl⟩

/-- C3: `get_keypair` with `create = false` is exactly the retrieve operation:
the whole run (result, final state, trace) coincides with that of
`compact_key_in_slot`, and it makes no generation or deletion calls. -/
theorem c3_get_keypair_false_is_retrieve (d : TeeDriver σ ε κ) (dev : Device) (s : σ) :
    Device.get_keypair d dev false s = compact_key_in_slot d dev.slot s ∧
    (Device.get_keypair d dev false s).result = (compact_key_in_slot d dev.slot s).result ∧
    countGen (Device.get_keypair d dev false s).events = 0 ∧
    countDel (Device.get_keypair d dev false s).events = 0 := by
  exact ⟨rfl, rfl, rfl, rfl⟩

theorem check_miner_key_frame (d : TeeDriver σ ε κ) (c : CryptoLib κ π τ ε)
    (slot : Nat) (s : σ) :
    (check_miner_key d c slot s).events = [HwEvent.retrieveCall slot Network.MainNet] ∧
    (check_miner_key d c slot s).state = s := by
  unfold check_miner_key
  cases h : d.keypair slot Network.MainNet s <;> simp [compact_key_in_slot, h]

theorem check_sign_frame (d : TeeDriver σ ε κ) (c : CryptoLib κ π τ ε)
    (slot : Nat) (s : σ) :
    (check_sign d c slot s).events = [HwEvent.retrieveCall slot Network.MainNet] ∧
    (check_sign d c slot s).state = s := by
  unfold check_sign
  cases h : d.keypair slot Network.MainNet s with
  | error e => simp [compact_key_in_slot, h]
  | ok kp =>
    cases hs : c.sign kp helloWorldData with
    | error e => simp [compact_key_in_slot, h, hs]
    | ok sg =>
      cases hv : c.verify (c.public_key kp) helloWorldData sg <;>
        simp [compact_key_in_slot, h, hs, hv]

theorem check_ecdh_frame (d : TeeDriver σ ε κ) (c : CryptoLib κ π τ ε)
    (slot : Nat) (s : σ) :
    ((check_ecdh d c slot s).events = [HwEvent.retrieveCall slot Network.MainNet] ∨
     (check_ecdh d c slot s).events =
       [HwEvent.retrieveCall slot Network.MainNet,
        HwEvent.keygenSoft { network := Network.MainNet, key_type := KeyType.EccCompact }]) ∧
    (check_ecdh d c slot s).state = s := by
  unfold check_ecdh
  cases h : d.keypair slot Network.MainNet s with
  | error e => simp [compact_key_in_slot, h]
  | ok kp =>
    cases h1 : c.ecdh kp (c.public_key (c.generate
        { network := Network.MainNet, key_type := KeyType.EccCompact })) with
    | error e => simp [compact_key_in_slot, h, h1]
    | ok a =>
      cases h2 : c.ecdh (c.generate
          { network := Network.MainNet, key_type := KeyType.EccCompact })
          (c.public_key kp) with
      | error e => simp [compact_key_in_slot, h, h1, h2]
      | ok b =>
        by_cases hab : a = b <;> simp [compact_key_in_slot, h, h1, h2, hab]

/-- C5: every self-test run is read-only on the hardware slot: it makes no
generation and no deletion calls (its only hardware call is retrieval), and
the hardware state after the run is the state before it. -/
theorem c5_tests_read_only (d : TeeDriver σ ε κ) (c : CryptoLib κ π τ ε)
    (s : σ) (t : Test) :
    countGen (Test.run d c s t).events = 0 ∧
    countDel (Test.run d c s t).events = 0 ∧
    (Test.run d c s t).state = s := by
  cases t with
  | MinerKey slot =>
    obtain ⟨he, hs⟩ := check_miner_key_frame d c slot s
    exact ⟨by rw [Test.run, he]; rfl, by rw [Test.run, he]; rfl, by rw [Test.run, hs]⟩
  | Sign slot =>
    obtain ⟨he, hs⟩ := check_sign_frame d c slot s
    exact ⟨by rw [Test.run, he]; rfl, by rw [Test.run, he]; rfl, by rw [Test.run, hs]⟩
  | Ecdh slot =>
    obtain ⟨he, hs⟩ := check_ecdh_frame d c slot s
    rcases he with he | he <;>
      exact ⟨by rw [Test.run, he]; rfl, by rw [Test.run, he]; rfl, by rw [Test.run, hs]⟩

theorem generate_loop_main_net (d : TeeDriver σ ε κ) (slot : Nat) :
    ∀ tc s, (generate_loop d slot tc s).events.all HwEvent.mainNetOnly = true := by
  intro tc
  induction tc with
  | zero =>
    intro s
    unfold generate_loop
    cases hg : d.gen_ecc_keypair slot s with
    | error e => simp [HwEvent.mainNetOnly]
    | ok s1 =>
      cases hr : d.keypair slot Network.MainNet s1 <;>
        simp [compact_key_in_slot, hr, HwEvent.mainNetOnly]
  | succ n ih =>
    intro s
    unfold generate_loop
    cases hg : d.gen_ecc_keypair slot s with
    | error e => simp [HwEvent.mainNetOnly]
    | ok s1 =>
      cases hr : d.keypair slot Network.MainNet s1 with
      | ok kp => simp [compact_key_in_slot, hr, HwEvent.mainNetOnly]
      | error err =>
        cases hd : d.del_ecc_keypair slot s1 with
        | error e => simp [compact_key_in_slot, hr, hd, HwEvent.mainNetOnly]
        | ok s2 => simp [compact_key_in_slot, hr, hd, HwEvent.mainNetOnly, ih s2]

/-- C10: every operation of the module is MainNet-only: in any run of
`get_keypair` (either create mode, hence also of `provision`) and of any
self-test, every hardware retrieval in the trace requests MainNet and every
software keypair generation uses the tag MainNet/EccCompact. -/
theorem c10_main_net_only (d : TeeDriver σ ε κ) (c : CryptoLib κ π τ ε)
    (dev : Device) (s : σ) (create : Bool) (t : Test) :
    (Device.get_keypair d dev create s).events.all HwEvent.mainNetOnly = true ∧
    (Test.run d c s t).events.all HwEvent.mainNetOnly = true := by
  constructor
  · cases create with
    | false => simp [Device.get_keypair, compact_key_in_slot, HwEvent.mainNetOnly]
    | true =>
      simpa [Device.get_keypair, generate_compact_key_in_slot] using
        generate_loop_main_net d dev.slot 10 s
  · cases t with
    | MinerKey slot =>
      obtain ⟨he, _⟩ := check_miner_key_frame d c slot s
      rw [Test.run, he]; rfl
    | Sign slot =>
      obtain ⟨he, _⟩ := check_sign_frame d c slot s
      rw [Test.run, he]; rfl
    | Ecdh slot =>
      obtain ⟨he, _⟩ := check_ecdh_frame d c slot s
      rcases he with he | he <;> (rw [Test.run, he]; rfl)

/-- C2: if, with at least one retry remaining, retrieval of a freshly
generated keypair fails and the subsequent deletion of the slot contents also
fails, the loop aborts at once with the deletion error after exactly one
generation, one retrieval and one deletion call; in particular a full
provisioning call hitting this on its first iteration returns the deletion
error having made exactly one generation call. -/
theorem c2_delete_failure_aborts (d : TeeDriver σ ε κ) (slot n : Nat) (s s1 : σ)
    (e ed : ε)
    (hgen : d.gen_ecc_keypair slot s = Except.ok s1)
    (hret : d.keypair slot Network.MainNet s1 = Except.error e)
    (hdel : d.del_ecc_keypair slot s1 = Except.error ed) :
    generate_loop d slot (n + 1) s =
      { result := Except.error ed, state := s1
        events := [HwEvent.genCall slot, HwEvent.retrieveCall slot Network.MainNet,
          HwEvent.delCall slot] } ∧
    (generate_compact_key_in_slot d slot s).result = Except.error ed ∧
    countGen (generate_compact_key_in_slot d slot s).events = 1 := by
  have hloop : ∀ m, generate_loop d slot (m + 1) s =
      { result := Except.error ed, state := s1
        events := [HwEvent.genCall slot, HwEvent.retrieveCall slot Network.MainNet,
          HwEvent.delCall slot] } := by
    intro m
    unfold generate_loop
    simp [hgen, compact_key_in_slot, hret, hdel]
  have h10 : generate_compact_key_in_slot d slot s =
      { result := Except.error ed, state := s1
        events := [HwEvent.genCall slot, HwEvent.retrieveCall slot Network.MainNet,
          HwEvent.delCall slot] } := by
    unfold generate_compact_key_in_slot
    exact hloop 9
  exact ⟨hloop n, by rw [h10], by rw [h10]; rfl⟩

/-- Closed instance of the deletion-failure property on a concrete stub. -/
theorem c2_delete_failure_aborts_witness :
    generate_loop delFailDriver 0 5 () =
      { result := Except.error 7, state := ()
        events := [HwEvent.genCall 0, HwEvent.retrieveCall 0 Network.MainNet,
          HwEvent.delCall 0] } ∧
    (generate_compact_key_in_slot delFailDriver 0 ()).result = Except.error 7 ∧
    countGen (generate_compact_key_in_slot delFailDriver 0 ()).events = 1 :=
  c2_delete_failure_aborts delFailDriver 0 4 () () 3 7 rfl rfl rfl

theorem isInit_nil {α : Type} (p : List α) (h : IsInit p ([] : List α)) : p = [] := by
  obtain ⟨t, ht⟩ := h
  exact List.append_eq_nil.mp ht |>.1

theorem isInit_cons {α : Type} (x : α) (l p : List α) (h : IsInit p (x :: l)) :
    p = [] ∨ ∃ q, p = x :: q ∧ IsInit q l := by
  obtain ⟨t, ht⟩ := h
  cases p with
  | nil => exact Or.inl rfl
  | cons y ys =>
    rw [List.cons_append] at ht
    injection ht with h1 h2
    exact Or.inr ⟨ys, by rw [h1], ⟨t, h2⟩⟩

theorem isInit_append_split {α : Type} (a b p : List α) (h : IsInit p (a ++ b)) :
    IsInit p a ∨ ∃ q, p = a ++ q ∧ IsInit q b := by
  induction a generalizing p with
  | nil => exact Or.inr ⟨p, rfl, h⟩
  | cons x xs ih =>
    cases p with
    | nil => exact Or.inl ⟨x :: xs, rfl⟩
    | cons y ys =>
      obtain ⟨t, ht⟩ := h
      rw [List.cons_append, List.cons_append] at ht
      injection ht with h1 h2
      rcases ih ys ⟨t, h2⟩ with hy | ⟨q, hq, hqb⟩
      · obtain ⟨u, hu⟩ := hy
        exact Or.inl ⟨u, by rw [List.cons_append, hu, h1]⟩
      · exact Or.inr ⟨q, by rw [List.cons_append, h1, hq], hqb⟩

theorem isInit_extend {α : Type} (a b p : List α) (h : IsInit p a) :
    IsInit p (a ++ b) := by
  obtain ⟨t, ht⟩ := h
  exact ⟨t ++ b, by rw [← List.append_assoc, ht]⟩

theorem countGen_append (a b : List HwEvent) :
    countGen (a ++ b) = countGen a + countGen b := by
  induction a with
  | nil => simp [countGen]
  | cons x xs ih => cases x <;> simp [countGen, ih, Nat.add_right_comm]

theorem countDel_append (a b : List HwEvent) :
    countDel (a ++ b) = countDel a + countDel b := by
  induction a with
  | nil => simp [countDel]
  | cons x xs ih => cases x <;> simp [countDel, ih, Nat.add_right_comm]

theorem count_init_grd (slot : Nat) (p : List HwEvent)
    (h : IsInit p [HwEvent.genCall slot, HwEvent.retrieveCall slot Network.MainNet,
      HwEvent.delCall slot]) :
    countGen p ≤ countDel p + 1 := by
  rcases isInit_cons _ _ _ h with rfl | ⟨q, rfl, hq⟩
  · simp [countGen, countDel]
  rcases isInit_cons _ _ _ hq with rfl | ⟨q1, rfl, hq1⟩
  · simp [countGen, countDel]
  rcases isInit_cons _ _ _ hq1 with rfl | ⟨q2, rfl, hq2⟩
  · simp [countGen, countDel]
  rw [isInit_nil _ hq2]
  simp [countGen, countDel]

theorem generate_loop_init_count (d : TeeDriver σ ε κ) (slot : Nat) :
    ∀ tc s p, IsInit p (generate_loop d slot tc s).events →
      countGen p ≤ countDel p + 1 := by
  intro tc
  induction tc with
  | zero =>
    intro s p h
    unfold generate_loop at h
    cases hg : d.gen_ecc_keypair slot s with
    | error e =>
      simp only [hg] at h
      exact count_init_grd slot p (isInit_extend [HwEvent.genCall slot]
        [HwEvent.retrieveCall slot Network.MainNet, HwEvent.delCall slot] p h)
    | ok s1 =>
      cases hr : d.keypair slot Network.MainNet s1 with
      | ok kp =>
        simp [hg, compact_key_in_slot, hr] at h
        exact count_init_grd slot p (isInit_extend
          [HwEvent.genCall slot, HwEvent.retrieveCall slot Network.MainNet]
          [HwEvent.delCall slot] p h)
      | error err =>
        simp [hg, compact_key_in_slot, hr] at h
        exact count_init_grd slot p (isInit_extend
          [HwEvent.genCall slot, HwEvent.retrieveCall slot Network.MainNet]
          [HwEvent.delCall slot] p h)
  | succ n ih =>
    intro s p h
    unfold generate_loop at h
    cases hg : d.gen_ecc_keypair slot s with
    | error e =>
      simp only [hg] at h
      exact count_init_grd slot p (isInit_extend [HwEvent.genCall slot]
        [HwEvent.retrieveCall slot Network.MainNet, HwEvent.delCall slot] p h)
    | ok s1 =>
      cases hr : d.keypair slot Network.MainNet s1 with
      | ok kp =>
        simp [hg, compact_key_in_slot, hr] at h
        exact count_init_grd slot p (isInit_extend
          [HwEvent.genCall slot, HwEvent.retrieveCall slot Network.MainNet]
          [HwEvent.delCall slot] p h)
      | error err =>
        cases hd : d.del_ecc_keypair slot s1 with
        | error e2 =>
          simp [hg, compact_key_in_slot, hr, hd] at h
          exact count_init_grd slot p h
        | ok s2 =>
          simp [hg, compact_key_in_slot, hr, hd] at h
          rcases isInit_append_split
            [HwEvent.genCall slot, HwEvent.retrieveCall slot Network.MainNet,
              HwEvent.delCall slot] (generate_loop d slot n s2).events p h with
            hpre | ⟨q, rfl, hq⟩
          · exact count_init_grd slot p hpre
          · have hrec := ih s2 q hq
            rw [countGen_append, countDel_append]
            simp only [countGen, countDel]
            omega

/-- C4: at most one keypair occupies the slot at any time during provisioning:
along every initial segment of the trace of a provisioning run, the number of
generation calls never exceeds the number of deletion calls plus one, so a
second keypair is never generated before the previous one has been deleted
from the slot (generation itself overwrites the single slot). -/
theorem c4_at_most_one_keypair (d : TeeDriver σ ε κ) (dev : Device) (s : σ)
    (p : List HwEvent) (h : IsInit p (Device.provision d dev s).events) :
    countGen p ≤ countDel p + 1 :=
  generate_loop_init_count d dev.slot 10 s p h

/-- Closed instance of the at-most-one-keypair trace bound on a concrete
stub whose first deletion fails. -/
theorem c4_at_most_one_keypair_witness :
    countGen [HwEvent.genCall 0] ≤ countDel [HwEvent.genCall 0] + 1 :=
  c4_at_most_one_keypair delFailDriver { slot := 0 } () [HwEvent.genCall 0]
    ⟨[HwEvent.retrieveCall 0 Network.MainNet, HwEvent.delCall 0], by decide⟩

/-- C1: against a stub whose retrieval fails on the first k attempts and
succeeds thereafter, provisioning with create = true succeeds for every
k ≤ 10 after exactly k + 1 generation calls and k deletion calls, returning
the keypair read on attempt k + 1; and when all 11 retrievals fail (k = 11)
it fails with the error of the 11th (last) retrieval, after exactly 11
generation calls and 10 deletion calls. -/
theorem c1_retry_budget :
    (∀ k, k ≤ 10 →
      (Device.get_keypair (retryStub k) { slot := 0 } true 0).result = Except.ok (k + 1) ∧
      countGen (Device.get_keypair (retryStub k) { slot := 0 } true 0).events = k + 1 ∧
      countDel (Device.get_keypair (retryStub k) { slot := 0 } true 0).events = k) ∧
    ((Device.get_keypair (retryStub 11) { slot := 0 } true 0).result = Except.error 11 ∧
      countGen (Device.get_keypair (retryStub 11) { slot := 0 } true 0).events = 11 ∧
      countDel (Device.get_keypair (retryStub 11) { slot := 0 } true 0).events = 10) := by
  constructor
  · decide
  · decide

/-- Closed instance of the retry bound at k = 3. -/
theorem c1_retry_budget_witness :
    (Device.get_keypair (retryStub 3) { slot := 0 } true 0).result = Except.ok 4 ∧
    countGen (Device.get_keypair (retryStub 3) { slot := 0 } true 0).events = 4 ∧
    countDel (Device.get_keypair (retryStub 3) { slot := 0 } true 0).events = 3 :=
  c1_retry_budget.1 3 (by decide)

/-- C7: the sign check passes with the literal value ok exactly when
retrieval, signing of the fixed message hello world, and verification of the
produced signature against the same public key and message all succeed; any
error from these three steps is returned as the failure of the test. -/
theorem c7_sign_check (d : TeeDriver σ ε κ) (c : CryptoLib κ π τ ε) (slot : Nat) (s : σ) :
    ((check_sign d c slot s).result = TestOutcome.pass "ok" ↔
      ∃ kp sg, d.keypair slot Network.MainNet s = Except.ok kp ∧
        c.sign kp helloWorldData = Except.ok sg ∧
        c.verify (c.public_key kp) helloWorldData sg = Except.ok ()) ∧
    (∀ e, d.keypair slot Network.MainNet s = Except.error e →
      (check_sign d c slot s).result = TestOutcome.error e) ∧
    (∀ kp e, d.keypair slot Network.MainNet s = Except.ok kp →
      c.sign kp helloWorldData = Except.error e →
      (check_sign d c slot s).result = TestOutcome.error e) ∧
    (∀ kp sg e, d.keypair slot Network.MainNet s = Except.ok kp →
      c.sign kp helloWorldData = Except.ok sg →
      c.verify (c.public_key kp) helloWorldData sg = Except.error e →
      (check_sign d c slot s).result = TestOutcome.error e) := by
  refine ⟨⟨?_, ?_⟩, ?_, ?_, ?_⟩
  · intro hpass
    unfold check_sign at hpass
    cases hk : d.keypair slot Network.MainNet s with
    | error e => simp [compact_key_in_slot, hk] at hpass
    | ok kp =>
      cases hs : c.sign kp helloWorldData with
      | error e => simp [compact_key_in_slot, hk, hs] at hpass
      | ok sg =>
        cases hv : c.verify (c.public_key kp) helloWorldData sg with
        | error e => simp [compact_key_in_slot, hk, hs, hv] at hpass
        | ok u => exact ⟨kp, sg, rfl, hs, by cases u; exact hv⟩
  · rintro ⟨kp, sg, h1, h2, h3⟩
    unfold check_sign
    simp [compact_key_in_slot, h1, h2, h3]
  · intro e he
    unfold check_sign
    simp [compact_key_in_slot, he]
  · intro kp e h1 h2
    unfold check_sign
    simp [compact_key_in_slot, h1, h2]
  · intro kp sg e h1 h2 h3
    unfold check_sign
    simp [compact_key_in_slot, h1, h2, h3]

/-- C6: the ecdh check retrieves the slot keypair and generates a software
peer; an error from either ecdh computation is returned as the failure of the
test, and when both succeed the check passes with the literal value ok if the
two shared secrets agree byte for byte and otherwise returns an expectation
mismatch whose expected field is the hexadecimal rendering of the device
shared secret and whose actual field is the hexadecimal rendering of the peer
shared secret. -/
theorem c6_ecdh_check (d : TeeDriver σ ε κ) (c : CryptoLib κ π τ ε) (slot : Nat)
    (s : σ) (kp : κ)
    (hret : d.keypair slot Network.MainNet s = Except.ok kp) :
    (∀ e, c.ecdh kp (c.public_key (c.generate peerTag)) = Except.error e →
      (check_ecdh d c slot s).result = TestOutcome.error e) ∧
    (∀ a e, c.ecdh kp (c.public_key (c.generate peerTag)) = Except.ok a →
      c.ecdh (c.generate peerTag) (c.public_key kp) = Except.error e →
      (check_ecdh d c slot s).result = TestOutcome.error e) ∧
    (∀ a b, c.ecdh kp (c.public_key (c.generate peerTag)) = Except.ok a →
      c.ecdh (c.generate peerTag) (c.public_key kp) = Except.ok b →
      (check_ecdh d c slot s).result =
        if a = b then TestOutcome.pass "ok"
        else TestOutcome.expected (hexFmt a) (hexFmt b)) := by
  refine ⟨?_, ?_, ?_⟩
  · intro e h1
    unfold check_ecdh
    simp [compact_key_in_slot, peerTag, hret] at h1 ⊢
    simp [h1]
  · intro a e h1 h2
    unfold check_ecdh
    simp [compact_key_in_slot, peerTag, hret] at h1 h2 ⊢
    simp [h1, h2]
  · intro a b h1 h2
    unfold check_ecdh
    simp [compact_key_in_slot, peerTag, hret] at h1 h2 ⊢
    by_cases hab : a = b <;> simp [h1, h2, hab]

/-- Closed instance of the sign-check characterization on concrete stubs. -/
theorem c7_sign_check_witness :
    (check_sign okDriver okCrypto 0 ()).result = TestOutcome.pass "ok" :=
  (c7_sign_check okDriver okCrypto 0 ()).1.mpr ⟨5, 9, rfl, rfl, rfl⟩

/-- Closed instance of the ecdh-check characterization on concrete stubs
whose two shared secrets differ. -/
theorem c6_ecdh_check_witness :
    (check_ecdh okDriver okCrypto 0 ()).result =
      TestOutcome.expected (hexFmt [5, 142]) (hexFmt [42, 105]) :=
  ((c6_ecdh_check okDriver okCrypto 0 () 5 rfl).2.2 [5, 142] [42, 105] rfl rfl).trans
    (if_neg (by decide))
